import Mathlib

/-!
# Verification of the `subscription_vault` Soroban contract

Shallow embedding of `src/contracts/subscription_vault/src/lib.rs`.

Modelling choices:
* `Address` values are opaque identifiers; we model them as `Nat`.
* The contract's instance storage is modelled by `VaultState`: the `NextId`
  counter (`Option Nat`, `none` when the key is absent), the
  `Subscription(u32) → Subscription` table and the
  `SubscriberIndex(Address) → Vec<u32>` table, both as association lists
  (`none`/missing key is distinguishable from an empty value, as in storage).
* Machine integers: `u32`/`u64` become `Nat`, `i128` becomes `Int`.  The only
  place the source performs arithmetic subject to machine-width semantics is
  `_next_id`'s `id + 1` (checked `u32` addition, which traps the invocation at
  overflow — modelled by returning `none`) and the pagination query's
  `start.saturating_add(limit)` (modelled by an explicit `min` clamp at
  `2^32 - 1`).
* Fallible entry points return `Except Error …`; a trapped invocation (panic)
  is `Option.none`.  An aborted invocation persists nothing, so errors carry
  no state.
* `require_auth` is performed by the host environment (the external
  authorization collaborator); it has no effect on the contract's own storage
  and is not part of the embedded state.
-/

/-- Association-list lookup over `Nat` keys: the typed-key storage `get`. -/
def lookupKey {α : Type} (k : Nat) : List (Nat × α) → Option α
  | [] => none
  | (k', v) :: rest => if k' = k then some v else lookupKey k rest

/-- Association-list update: the typed-key storage `set` (overwrites the
existing binding for `k`, or appends a fresh one). -/
def setKey {α : Type} (k : Nat) (v : α) : List (Nat × α) → List (Nat × α)
  | [] => [(k, v)]
  | (k', v') :: rest => if k' = k then (k, v) :: rest else (k', v') :: setKey k v rest

/-- `u32` modulus. -/
def U32_MOD : Nat := 2 ^ 32

/-- `u32::saturating_add` on values already known to be in range. -/
def saturatingAddU32 (a b : Nat) : Nat := min (a + b) (U32_MOD - 1)

/-- `SubscriptionStatus` from the contract (`Active = 0`, `Paused = 1`,
`Cancelled = 2`, `InsufficientBalance = 3`). -/
inductive SubscriptionStatus : Type where
  | Active
  | Paused
  | Cancelled
  | InsufficientBalance
deriving Repr, DecidableEq

/-- The `Subscription` record stored under `DataKey::Subscription(id)`. -/
structure Subscription : Type where
  subscriber : Nat
  merchant : Nat
  amount : Int
  interval_seconds : Nat
  last_payment_timestamp : Nat
  status : SubscriptionStatus
  prepaid_balance : Int
  usage_enabled : Bool
deriving Repr, DecidableEq

/-- `SubscriptionEntry`: a record paired with its on-chain id, as returned by
`get_subscriptions_by_subscriber`. -/
structure SubscriptionEntry : Type where
  id : Nat
  subscription : Subscription
deriving Repr, DecidableEq

/-- The contract's error enum: only `NotFound = 404` and `Unauthorized = 401`
exist in the source. -/
inductive Error : Type where
  | NotFound
  | Unauthorized
deriving Repr, DecidableEq

/-- The contract's instance storage (the keys the embedded operations touch:
`NextId`, `Subscription(id)`, `SubscriberIndex(addr)`; `Token` and `Admin` are
written only by `init` and read by nobody, so they are omitted). -/
structure VaultState : Type where
  nextId : Option Nat
  subs : List (Nat × Subscription)
  index : List (Nat × List Nat)
deriving Repr, DecidableEq

/-- The storage state of a freshly deployed contract: no keys present. -/
def emptyState : VaultState := ⟨none, [], []⟩

/-- `_next_id`: read the counter (`unwrap_or(0)`), persist `id + 1`, return
`id`.  `id + 1` is checked `u32` arithmetic: at overflow the invocation traps
(`none`) and nothing is persisted. -/
def nextIdAlloc (s : VaultState) : Option (Nat × VaultState) :=
  let id := s.nextId.getD 0
  if id + 1 < U32_MOD then some (id, { s with nextId := some (id + 1) })
  else none

/-- `create_subscription`: build the record (`status = Active`,
`last_payment_timestamp = now`, `prepaid_balance = 0`), allocate the id, store
the record, append the id to the subscriber's index (`unwrap_or_else(Vec::new)`
when absent).  `now` is `env.ledger().timestamp()`.  The Rust function's
`Result` is always `Ok(id)`; the only non-success is the counter-overflow
trap, modelled as `none`. -/
def create_subscription (s : VaultState) (subscriber merchant : Nat) (amount : Int)
    (interval_seconds : Nat) (usage_enabled : Bool) (now : Nat) :
    Option (Nat × VaultState) :=
  let sub : Subscription :=
    { subscriber := subscriber
      merchant := merchant
      amount := amount
      interval_seconds := interval_seconds
      last_payment_timestamp := now
      status := SubscriptionStatus.Active
      prepaid_balance := 0
      usage_enabled := usage_enabled }
  match nextIdAlloc s with
  | none => none
  | some (id, s1) =>
    let s2 := { s1 with subs := setKey id sub s1.subs }
    let ids := (lookupKey subscriber s2.index).getD []
    some (id, { s2 with index := setKey subscriber (ids ++ [id]) s2.index })

/-- `charge_subscription` as written in the source: the body is a TODO stub
that ignores its arguments and returns `Ok(())` without reading or writing any
storage. -/
def charge_subscription (s : VaultState) (_subscription_id : Nat) :
    Except Error VaultState :=
  Except.ok s

/-- `cancel_subscription` as written in the source: after `require_auth` the
body is a TODO stub that ignores its arguments and returns `Ok(())` without
reading or writing any storage. -/
def cancel_subscription (s : VaultState) (_subscription_id _authorizer : Nat) :
    Except Error VaultState :=
  Except.ok s

/-- `get_subscription`: read `Subscription(subscription_id)`,
`ok_or(Error::NotFound)`.  A read-only entry point: it takes no mutable
effect on `VaultState`. -/
def get_subscription (s : VaultState) (subscription_id : Nat) :
    Except Error Subscription :=
  match lookupKey subscription_id s.subs with
  | some sub => Except.ok sub
  | none => Except.error Error.NotFound

/-- The `while i < end_idx` loop of `get_subscriptions_by_subscriber`:
`ids.get(i)` (skipped if out of bounds), then the `Subscription(sub_id)`
storage read (a missing record is skipped), pushing hits in order. -/
def collectEntries (s : VaultState) (ids : List Nat) (i e : Nat) :
    List SubscriptionEntry :=
  if i < e then
    match ids[i]? with
    | some sub_id =>
      match lookupKey sub_id s.subs with
      | some sub => ⟨sub_id, sub⟩ :: collectEntries s ids (i + 1) e
      | none => collectEntries s ids (i + 1) e
    | none => collectEntries s ids (i + 1) e
  else []
termination_by e - i

/-- `get_subscriptions_by_subscriber`: load the subscriber's id list
(`unwrap_or_else(Vec::new)`), compute `start_idx = start.min(total)` and
`end_idx = total` if `limit == 0` else `start.saturating_add(limit).min(total)`,
then run the collection loop over `[start_idx, end_idx)`. -/
def get_subscriptions_by_subscriber (s : VaultState) (subscriber start limit : Nat) :
    List SubscriptionEntry :=
  let ids := (lookupKey subscriber s.index).getD []
  let total := ids.length
  let start_idx := min start total
  let end_idx := if limit = 0 then total else min (saturatingAddU32 start limit) total
  collectEntries s ids start_idx end_idx

/-!
## Spec-modelled usage metering

The repository's source contains no usage-charge entry point; §4.4 of the
spec fully specifies it.  The definitions below follow the spec's words.
-/

/-- Modelled from the spec: the full error taxonomy of §7.  The source's
`Error` enum has only `NotFound`/`Unauthorized`; the remaining kinds appear
only in the spec. -/
inductive SpecError : Type where
  | NotFound
  | Unauthorized
  | IntervalNotElapsed
  | NotActive
  | UsageNotEnabled
  | InsufficientPrepaidBalance
  | InvalidAmount
deriving Repr, DecidableEq

/-- Modelled from the spec: `chargeUsage(id, usageAmount)` (§4.4), an
operation missing from `src/`.  Preconditions in order: record exists;
`status == Active`; `usage_enabled == true`; `usageAmount > 0`;
`prepaid_balance >= usageAmount`.  Effect: debit the balance; if the result
is exactly 0, `status := InsufficientBalance`, else status stays `Active`;
persist.  A failed operation aborts with no persisted change, so errors carry
no state. -/
def charge_usage (s : VaultState) (id : Nat) (usageAmount : Int) :
    Except SpecError VaultState :=
  match lookupKey id s.subs with
  | none => Except.error SpecError.NotFound
  | some sub =>
    if sub.status ≠ SubscriptionStatus.Active then Except.error SpecError.NotActive
    else if sub.usage_enabled = false then Except.error SpecError.UsageNotEnabled
    else if usageAmount ≤ 0 then Except.error SpecError.InvalidAmount
    else if sub.prepaid_balance < usageAmount then
      Except.error SpecError.InsufficientPrepaidBalance
    else
      let newBal := sub.prepaid_balance - usageAmount
      let newStatus :=
        if newBal = 0 then SubscriptionStatus.InsufficientBalance
        else SubscriptionStatus.Active
      let sub' := { sub with prepaid_balance := newBal, status := newStatus }
      Except.ok { s with subs := setKey id sub' s.subs }

/-!
## Spec-side replay of creation sequences

`CreateReq` packages the arguments of one `create_subscription` call
(`now` being the ledger timestamp the host supplies for that invocation);
`runCreates` replays a sequence of such calls, collecting the returned ids.
A trapped call (allocator overflow) returns no id and persists nothing.
-/

/-- Arguments of one `create_subscription` invocation. -/
structure CreateReq : Type where
  subscriber : Nat
  merchant : Nat
  amount : Int
  interval_seconds : Nat
  usage_enabled : Bool
  now : Nat
deriving Repr, DecidableEq

/-- The record `create_subscription` builds from a request. -/
def reqRecord (r : CreateReq) : Subscription :=
  { subscriber := r.subscriber
    merchant := r.merchant
    amount := r.amount
    interval_seconds := r.interval_seconds
    last_payment_timestamp := r.now
    status := SubscriptionStatus.Active
    prepaid_balance := 0
    usage_enabled := r.usage_enabled }

/-- Replay a sequence of `create_subscription` calls from state `s`,
returning the list of ids the successful calls returned and the final
state. -/
def runCreates (s : VaultState) : List CreateReq → List Nat × VaultState
  | [] => ([], s)
  | r :: rs =>
    match create_subscription s r.subscriber r.merchant r.amount
        r.interval_seconds r.usage_enabled r.now with
    | some (id, s') => (id :: (runCreates s' rs).1, (runCreates s' rs).2)
    | none => runCreates s rs

/-- Specification-side description of what a full-list query for subscriber
`a` must return after replaying `reqs` with the allocator counter at `c`:
one entry per successful create whose subscriber is `a`, carrying the id the
allocator assigned and the record written at creation, in creation order. -/
def expectedEntries (c : Nat) (a : Nat) : List CreateReq → List SubscriptionEntry
  | [] => []
  | r :: rs =>
    if c + 1 < U32_MOD then
      if r.subscriber = a then ⟨c, reqRecord r⟩ :: expectedEntries (c + 1) a rs
      else expectedEntries (c + 1) a rs
    else expectedEntries c a rs

/-!
## Basic storage lemmas
-/

theorem lookupKey_setKey_self {α : Type} (k : Nat) (v : α) (m : List (Nat × α)) :
    lookupKey k (setKey k v m) = some v := by
  induction m with
  | nil => simp [setKey, lookupKey]
  | cons hd tl ih =>
    obtain ⟨k', v'⟩ := hd
    by_cases h : k' = k
    · simp [setKey, lookupKey, h]
    · simp [setKey, lookupKey, h, ih]

theorem lookupKey_setKey_ne {α : Type} (k j : Nat) (v : α) (m : List (Nat × α))
    (hne : j ≠ k) : lookupKey j (setKey k v m) = lookupKey j m := by
  have hk : ¬ k = j := fun h => hne h.symm
  induction m with
  | nil => simp [setKey, lookupKey, hk]
  | cons hd tl ih =>
    obtain ⟨k', v'⟩ := hd
    by_cases h : k' = k
    · subst h
      simp [setKey, lookupKey, hk]
    · simp only [setKey, if_neg h, lookupKey]
      by_cases h2 : k' = j <;> simp [h2, ih]

/-!
## Characterising the pagination loop
-/

/-- The body of one loop iteration as an `Option`: the entry produced for a
listed id, `none` when its record is missing from storage. -/
def entryFor (s : VaultState) (sub_id : Nat) : Option SubscriptionEntry :=
  (lookupKey sub_id s.subs).map (fun sub => ⟨sub_id, sub⟩)

theorem collectEntries_eq_filterMap_aux (s : VaultState) (ids : List Nat) :
    ∀ (n i e : Nat), e - i ≤ n →
    collectEntries s ids i e = ((ids.drop i).take (e - i)).filterMap (entryFor s) := by
  intro n
  induction n with
  | zero =>
    intro i e h
    have hni : ¬ i < e := by omega
    have he : e - i = 0 := by omega
    unfold collectEntries
    simp [hni, he]
  | succ n ih =>
    intro i e h
    by_cases hlt : i < e
    · have hstep : e - i = (e - (i + 1)) + 1 := by omega
      unfold collectEntries
      rw [if_pos hlt]
      cases hget : ids[i]? with
      | some a =>
        obtain ⟨hil, hia⟩ := List.getElem?_eq_some_iff.mp hget
        rw [List.drop_eq_getElem_cons hil, hia, hstep, List.take_succ_cons,
          List.filterMap_cons]
        cases hl : lookupKey a s.subs with
        | some sub =>
          simp only [entryFor, hl, Option.map_some']
          rw [ih (i + 1) e (by omega)]
        | none =>
          simp only [entryFor, hl, Option.map_none']
          rw [ih (i + 1) e (by omega)]
      | none =>
        have hle : ids.length ≤ i := by
          by_contra hc
          push_neg at hc
          rw [List.getElem?_eq_getElem hc] at hget
          exact Option.noConfusion hget
        rw [List.drop_eq_nil_of_le hle, List.take_nil, List.filterMap_nil,
          ih (i + 1) e (by omega), List.drop_eq_nil_of_le (by omega),
          List.take_nil, List.filterMap_nil]
    · have he : e - i = 0 := by omega
      unfold collectEntries
      simp [hlt, he]

/-- The pagination loop yields exactly the ids at positions `[i, e)` of the
index, each joined against the record store, misses skipped. -/
theorem collectEntries_eq_filterMap (s : VaultState) (ids : List Nat) (i e : Nat) :
    collectEntries s ids i e = ((ids.drop i).take (e - i)).filterMap (entryFor s) :=
  collectEntries_eq_filterMap_aux s ids (e - i) i e le_rfl

/-- The id list the query reads for `subscriber` (empty when the index key is
absent). -/
def subscriberIds (s : VaultState) (subscriber : Nat) : List Nat :=
  (lookupKey subscriber s.index).getD []

/-- `get_subscriptions_by_subscriber` in closed form: the window
`[min start total, endIdx)` of the subscriber's id list, joined against the
record store. -/
theorem get_subscriptions_eq (s : VaultState) (subscriber start limit : Nat) :
    get_subscriptions_by_subscriber s subscriber start limit =
      (((subscriberIds s subscriber).drop (min start (subscriberIds s subscriber).length)).take
        ((if limit = 0 then (subscriberIds s subscriber).length
          else min (saturatingAddU32 start limit) (subscriberIds s subscriber).length)
          - min start (subscriberIds s subscriber).length)).filterMap (entryFor s) := by
  unfold get_subscriptions_by_subscriber
  rw [collectEntries_eq_filterMap]
  rfl

/-!
## Shape of one successful creation
-/

/-- The state `create_subscription` persists on success. -/
def createdState (s : VaultState) (r : CreateReq) : VaultState :=
  { nextId := some (s.nextId.getD 0 + 1)
    subs := setKey (s.nextId.getD 0) (reqRecord r) s.subs
    index := setKey r.subscriber
      ((lookupKey r.subscriber s.index).getD [] ++ [s.nextId.getD 0]) s.index }

theorem create_subscription_ok (s : VaultState) (r : CreateReq)
    (hc : s.nextId.getD 0 + 1 < U32_MOD) :
    create_subscription s r.subscriber r.merchant r.amount r.interval_seconds
      r.usage_enabled r.now = some (s.nextId.getD 0, createdState s r) := by
  unfold create_subscription nextIdAlloc
  simp only [hc, if_pos]
  rfl

theorem create_subscription_overflow (s : VaultState) (r : CreateReq)
    (hc : ¬ s.nextId.getD 0 + 1 < U32_MOD) :
    create_subscription s r.subscriber r.merchant r.amount r.interval_seconds
      r.usage_enabled r.now = none := by
  unfold create_subscription nextIdAlloc
  simp [hc]

/-!
## Ids returned by a creation sequence
-/

/-- Number of `create` calls that succeed when the allocator counter starts at
`c` (every call after the counter saturates traps). -/
def allocCount (c : Nat) : List CreateReq → Nat
  | [] => 0
  | _ :: rs => if c + 1 < U32_MOD then allocCount (c + 1) rs + 1 else allocCount c rs

theorem runCreates_ids (a : List CreateReq) :
    ∀ s : VaultState,
    (runCreates s a).1 = List.range' (s.nextId.getD 0) (allocCount (s.nextId.getD 0) a) := by
  induction a with
  | nil => intro s; simp [runCreates, allocCount]
  | cons r rs ih =>
    intro s
    by_cases hc : s.nextId.getD 0 + 1 < U32_MOD
    · rw [runCreates, create_subscription_ok s r hc]
      have hnext : (createdState s r).nextId.getD 0 = s.nextId.getD 0 + 1 := rfl
      simp only [allocCount, if_pos hc, List.range'_succ]
      rw [ih (createdState s r), hnext]
    · rw [runCreates, create_subscription_overflow s r hc]
      simp only [allocCount, if_neg hc]
      exact ih s

/-!
## Index completeness machinery
-/

theorem expectedEntries_cons (c a : Nat) (r : CreateReq) (rs : List CreateReq) :
    expectedEntries c a (r :: rs) =
      if c + 1 < U32_MOD then
        if r.subscriber = a then ⟨c, reqRecord r⟩ :: expectedEntries (c + 1) a rs
        else expectedEntries (c + 1) a rs
      else expectedEntries c a rs := rfl

/-- Every id listed in any subscriber's index is below the allocator counter
(so a fresh id never collides with a listed one). -/
def IndexBounded (s : VaultState) : Prop :=
  ∀ a id, id ∈ subscriberIds s a → id < s.nextId.getD 0

/-- The full-list query result: every listed id joined against the record
store. -/
def allEntries (s : VaultState) (a : Nat) : List SubscriptionEntry :=
  (subscriberIds s a).filterMap (entryFor s)

theorem get_subscriptions_full (s : VaultState) (a : Nat) :
    get_subscriptions_by_subscriber s a 0 0 = allEntries s a := by
  rw [get_subscriptions_eq]
  simp [allEntries]

theorem indexBounded_empty : IndexBounded emptyState := by
  intro a id h
  simp [subscriberIds, emptyState, lookupKey] at h

theorem subscriberIds_created_self (s : VaultState) (r : CreateReq) :
    subscriberIds (createdState s r) r.subscriber =
      subscriberIds s r.subscriber ++ [s.nextId.getD 0] := by
  unfold subscriberIds createdState
  rw [lookupKey_setKey_self]
  rfl

theorem subscriberIds_created_other (s : VaultState) (r : CreateReq) (a : Nat)
    (ha : a ≠ r.subscriber) :
    subscriberIds (createdState s r) a = subscriberIds s a := by
  unfold subscriberIds createdState
  rw [lookupKey_setKey_ne _ _ _ _ ha]

theorem indexBounded_created (s : VaultState) (r : CreateReq)
    (hB : IndexBounded s) : IndexBounded (createdState s r) := by
  intro a id h
  have hnext : (createdState s r).nextId.getD 0 = s.nextId.getD 0 + 1 := rfl
  rw [hnext]
  by_cases ha : a = r.subscriber
  · subst ha
    rw [subscriberIds_created_self] at h
    rcases List.mem_append.mp h with h1 | h1
    · exact Nat.lt_succ_of_lt (hB r.subscriber id h1)
    · have : id = s.nextId.getD 0 := List.mem_singleton.mp h1
      omega
  · rw [subscriberIds_created_other s r a ha] at h
    exact Nat.lt_succ_of_lt (hB a id h)

theorem entryFor_created_old (s : VaultState) (r : CreateReq) (id : Nat)
    (hid : id ≠ s.nextId.getD 0) :
    entryFor (createdState s r) id = entryFor s id := by
  unfold entryFor createdState
  rw [lookupKey_setKey_ne _ _ _ _ hid]

theorem allEntries_created (s : VaultState) (r : CreateReq) (a : Nat)
    (hB : IndexBounded s) :
    allEntries (createdState s r) a =
      allEntries s a ++
        (if r.subscriber = a then [⟨s.nextId.getD 0, reqRecord r⟩] else []) := by
  have hold : ∀ id ∈ subscriberIds s a,
      entryFor (createdState s r) id = entryFor s id := by
    intro id hid
    exact entryFor_created_old s r id (Nat.ne_of_lt (hB a id hid))
  by_cases ha : r.subscriber = a
  · subst ha
    unfold allEntries
    rw [subscriberIds_created_self, List.filterMap_append,
      List.filterMap_congr hold]
    have hnew : entryFor (createdState s r) (s.nextId.getD 0) =
        some ⟨s.nextId.getD 0, reqRecord r⟩ := by
      unfold entryFor createdState
      rw [lookupKey_setKey_self]
      rfl
    simp [hnew]
  · unfold allEntries
    rw [subscriberIds_created_other s r a (fun h => ha h.symm),
      List.filterMap_congr hold]
    simp [ha]

theorem runCreates_allEntries (a : Nat) (reqs : List CreateReq) :
    ∀ s : VaultState, IndexBounded s →
    allEntries (runCreates s reqs).2 a =
      allEntries s a ++ expectedEntries (s.nextId.getD 0) a reqs := by
  induction reqs with
  | nil => intro s _; simp [runCreates, expectedEntries]
  | cons r rs ih =>
    intro s hB
    by_cases hc : s.nextId.getD 0 + 1 < U32_MOD
    · rw [runCreates, create_subscription_ok s r hc]
      have hnext : (createdState s r).nextId.getD 0 = s.nextId.getD 0 + 1 := rfl
      have hstep := ih (createdState s r) (indexBounded_created s r hB)
      rw [hnext] at hstep
      show allEntries (runCreates (createdState s r) rs).2 a = _
      rw [hstep, allEntries_created s r a hB, expectedEntries_cons, if_pos hc]
      by_cases ha : r.subscriber = a
      · rw [if_pos ha, if_pos ha, List.append_assoc]
        rfl
      · rw [if_neg ha, if_neg ha, List.append_nil]
    · rw [runCreates, create_subscription_overflow s r hc]
      rw [expectedEntries_cons, if_neg hc]
      exact ih s hB

theorem expectedEntries_lb_chain (a : Nat) (reqs : List CreateReq) :
    ∀ c : Nat,
    (∀ x ∈ expectedEntries c a reqs, c ≤ x.id) ∧
      List.Chain' (fun x y : SubscriptionEntry => x.id < y.id)
        (expectedEntries c a reqs) := by
  induction reqs with
  | nil => intro c; simp [expectedEntries]
  | cons r rs ih =>
    intro c
    rw [expectedEntries_cons]
    by_cases hc : c + 1 < U32_MOD
    · rw [if_pos hc]
      obtain ⟨ihlb, ihch⟩ := ih (c + 1)
      by_cases ha : r.subscriber = a
      · rw [if_pos ha]
        constructor
        · intro x hx
          rcases List.mem_cons.mp hx with h | h
          · subst h; exact le_rfl
          · exact Nat.le_of_succ_le (ihlb x h)
        · rw [List.chain'_cons']
          refine ⟨?_, ihch⟩
          intro y hy
          exact ihlb y (List.mem_of_mem_head? hy)
      · rw [if_neg ha]
        exact ⟨fun x hx => Nat.le_of_succ_le (ihlb x hx), ihch⟩
    · rw [if_neg hc]
      exact ih c

theorem expectedEntries_length (a : Nat) (reqs : List CreateReq) :
    ∀ c : Nat, c + reqs.length < U32_MOD →
    (expectedEntries c a reqs).length =
      reqs.countP (fun r => r.subscriber == a) := by
  induction reqs with
  | nil => intro c _; simp [expectedEntries]
  | cons r rs ih =>
    intro c hlen
    have hc : c + 1 < U32_MOD := by
      simp only [List.length_cons] at hlen
      omega
    rw [expectedEntries_cons, if_pos hc, List.countP_cons]
    have hrec := ih (c + 1) (by simp only [List.length_cons] at hlen; omega)
    by_cases ha : r.subscriber = a
    · rw [if_pos ha]
      simp [ha, hrec]
    · rw [if_neg ha]
      have : (r.subscriber == a) = false := beq_false_of_ne ha
      simp [this, hrec]

/-- Projecting the ids out of the joined window leaves exactly the listed ids
whose record is present. -/
theorem filterMap_entryFor_ids (s : VaultState) (l : List Nat) :
    (l.filterMap (entryFor s)).map SubscriptionEntry.id =
      l.filter (fun sub_id => (lookupKey sub_id s.subs).isSome) := by
  induction l with
  | nil => simp
  | cons x l ih =>
    cases hl : lookupKey x s.subs with
    | some sub =>
      rw [List.filterMap_cons, List.filter_cons]
      simp [entryFor, hl, ih]
    | none =>
      rw [List.filterMap_cons, List.filter_cons]
      simp [entryFor, hl, ih]

/-!
## Concrete states used by witnesses and evidence theorems
-/

/-- A concrete Active record (`T = 0`, `I = 10`) for interval-charge
evidence. -/
def intervalSub : Subscription :=
  { subscriber := 1, merchant := 2, amount := 5, interval_seconds := 10,
    last_payment_timestamp := 0, status := SubscriptionStatus.Active,
    prepaid_balance := 100, usage_enabled := false }

/-- Storage holding `intervalSub` under id 0. -/
def intervalState : VaultState := ⟨some 1, [(0, intervalSub)], [(1, [0])]⟩

/-- A concrete Active record for cancel evidence. -/
def cancelSub : Subscription :=
  { subscriber := 1, merchant := 2, amount := 5, interval_seconds := 10,
    last_payment_timestamp := 0, status := SubscriptionStatus.Active,
    prepaid_balance := 100, usage_enabled := false }

/-- Storage holding `cancelSub` under id 0. -/
def cancelState : VaultState := ⟨some 1, [(0, cancelSub)], [(1, [0])]⟩

/-- A concrete Active, usage-enabled record with balance 10. -/
def usageSub : Subscription :=
  { subscriber := 1, merchant := 2, amount := 5, interval_seconds := 10,
    last_payment_timestamp := 0, status := SubscriptionStatus.Active,
    prepaid_balance := 10, usage_enabled := true }

/-- Storage holding `usageSub` under id 0. -/
def usageState : VaultState := ⟨some 1, [(0, usageSub)], [(1, [0])]⟩

/-- A concrete record for lookup evidence. -/
def lookupSub : Subscription :=
  { subscriber := 1, merchant := 2, amount := 7, interval_seconds := 60,
    last_payment_timestamp := 3, status := SubscriptionStatus.Active,
    prepaid_balance := 0, usage_enabled := false }

/-- Storage holding `lookupSub` under id 0 and nothing else. -/
def lookupState : VaultState := ⟨some 1, [(0, lookupSub)], [(1, [0])]⟩

/-- Three concrete creation requests: subscriber 1, then 3, then 1 again. -/
def wreq1 : CreateReq := ⟨1, 2, 5, 60, true, 100⟩

/-- Second concrete creation request (subscriber 3). -/
def wreq2 : CreateReq := ⟨3, 2, 7, 60, false, 101⟩

/-- Third concrete creation request (subscriber 1 again). -/
def wreq3 : CreateReq := ⟨1, 4, 9, 30, true, 102⟩

/-!
## Claims
-/

/-- C1: for every subscriber, `start` and `limit`, the pagination query
computes `startIdx = min(start, total)` (with `total` the length of the
subscriber's index), `endIdx = total` when `limit == 0` and otherwise
`min(start + limit, total)` with saturating addition, and returns exactly the
entries at index positions in `[startIdx, endIdx)` (each listed id joined
against the record store).  `limit == 0` therefore means "all remaining from
`start`", not zero results. -/
theorem pagination_window_spec (s : VaultState) (subscriber start limit : Nat) :
    get_subscriptions_by_subscriber s subscriber start limit =
      (((subscriberIds s subscriber).drop
          (min start (subscriberIds s subscriber).length)).take
        ((if limit = 0 then (subscriberIds s subscriber).length
          else min (saturatingAddU32 start limit) (subscriberIds s subscriber).length)
          - min start (subscriberIds s subscriber).length)).filterMap (entryFor s) :=
  get_subscriptions_eq s subscriber start limit

/-- C2: replaying any sequence of `create` calls from the empty store, the
returned ids are exactly `0, 1, 2, …` in order: the first returned id is 0,
each subsequent returned id is one more than the previous, and no id is ever
reused (the list equals `List.range` of its own length). -/
theorem create_id_monotonicity (reqs : List CreateReq) :
    (runCreates emptyState reqs).1 =
      List.range (runCreates emptyState reqs).1.length := by
  have h := runCreates_ids reqs emptyState
  have h0 : emptyState.nextId.getD 0 = 0 := rfl
  rw [h0] at h
  rw [h, List.length_range', List.range_eq_range']

/-- C3: after replaying any interleaved creation sequence from the empty
store, the full-list query `get_subscriptions_by_subscriber(a, 0, 0)` returns
exactly one entry per create whose subscriber is `a` — in creation order,
carrying the allocator-assigned id and the record written at creation
(`expectedEntries` is precisely that list, so creates for other subscribers
never appear); the entry ids are strictly ascending (no duplicates); and when
the sequence is short enough for the allocator (fewer than `2^32` calls) the
result has exactly N entries, N the number of creates for `a`. -/
theorem index_completeness (reqs : List CreateReq) (a : Nat) :
    get_subscriptions_by_subscriber (runCreates emptyState reqs).2 a 0 0 =
      expectedEntries 0 a reqs ∧
    List.Chain' (fun x y : SubscriptionEntry => x.id < y.id)
      (expectedEntries 0 a reqs) ∧
    (reqs.length < U32_MOD →
      (expectedEntries 0 a reqs).length =
        reqs.countP (fun r => r.subscriber == a)) := by
  refine ⟨?_, (expectedEntries_lb_chain a reqs 0).2,
    fun h => expectedEntries_length a reqs 0 (by omega)⟩
  rw [get_subscriptions_full]
  have h := runCreates_allEntries a reqs emptyState indexBounded_empty
  have h0 : emptyState.nextId.getD 0 = 0 := rfl
  rw [h0] at h
  rw [h]
  have he : allEntries emptyState a = [] := rfl
  rw [he, List.nil_append]

/-- Witness for C3: three interleaved creates (subscribers 1, 3, 1); the
full-list query for subscriber 1 returns its two entries, ascending, with
length equal to the number of its creates. -/
theorem index_completeness_witness :
    get_subscriptions_by_subscriber (runCreates emptyState [wreq1, wreq2, wreq3]).2 1 0 0 =
      expectedEntries 0 1 [wreq1, wreq2, wreq3] ∧
    List.Chain' (fun x y : SubscriptionEntry => x.id < y.id)
      (expectedEntries 0 1 [wreq1, wreq2, wreq3]) ∧
    (expectedEntries 0 1 [wreq1, wreq2, wreq3]).length =
      List.countP (fun r => r.subscriber == 1) [wreq1, wreq2, wreq3] := by
  obtain ⟨h1, h2, h3⟩ := index_completeness [wreq1, wreq2, wreq3] 1
  exact ⟨h1, h2, h3 (by decide)⟩

/-- C4 (evidence): the claim asks that the interval charge fail with
`IntervalNotElapsed` before `T + I` and debit/update at `T + I`, but the
source's `charge_subscription` is an unimplemented stub: on a state holding
an Active record with `last_payment_timestamp = 0`, `interval_seconds = 10`,
it returns `Ok` and persists nothing — at every invocation time, including
`now = 5 < T + I`.  (The source's `Error` enum does not even contain an
`IntervalNotElapsed` variant.)  The contract's own doc comment and TODO
markers state the claimed behaviour as the intent, so the code is the bug. -/
theorem interval_charge_unimplemented :
    charge_subscription intervalState 0 = Except.ok intervalState ∧
    get_subscription intervalState 0 = Except.ok intervalSub ∧
    intervalSub.last_payment_timestamp = 0 ∧
    intervalSub.interval_seconds = 10 ∧
    intervalSub.status = SubscriptionStatus.Active :=
  ⟨rfl, rfl, rfl, rfl, rfl⟩

/-- The record a successful usage charge of `k` persists: balance debited by
`k`, status `InsufficientBalance` exactly when the new balance is 0, else
still `Active`. -/
def debitedSub (sub : Subscription) (k : Int) : Subscription :=
  { sub with
    prepaid_balance := sub.prepaid_balance - k
    status :=
      if sub.prepaid_balance - k = 0 then SubscriptionStatus.InsufficientBalance
      else SubscriptionStatus.Active }

/-- C5: on a stored Active record (spec-modelled `chargeUsage`, §4.4): a
usage charge of `k` with `0 < k ≤ B` debits the balance to `B - k`, the
status becoming `InsufficientBalance` exactly when `B - k = 0` and staying
`Active` otherwise; the guards reject with `UsageNotEnabled` when usage is
disabled, `InvalidAmount` for `k ≤ 0`, `InsufficientPrepaidBalance` for
`k > B`, and a rejected operation aborts without a new state, so the balance
is unchanged. -/
theorem usage_charge_correct (s : VaultState) (id : Nat) (sub : Subscription)
    (k : Int) (hlook : lookupKey id s.subs = some sub)
    (hact : sub.status = SubscriptionStatus.Active) :
    (sub.usage_enabled = true → 0 < k → k ≤ sub.prepaid_balance →
      charge_usage s id k = Except.ok
        { s with subs := setKey id (debitedSub sub k) s.subs }) ∧
    (sub.usage_enabled = false →
      charge_usage s id k = Except.error SpecError.UsageNotEnabled) ∧
    (sub.usage_enabled = true → k ≤ 0 →
      charge_usage s id k = Except.error SpecError.InvalidAmount) ∧
    (sub.usage_enabled = true → 0 < k → sub.prepaid_balance < k →
      charge_usage s id k = Except.error SpecError.InsufficientPrepaidBalance) := by
  unfold charge_usage
  rw [hlook]
  refine ⟨?_, ?_, ?_, ?_⟩
  · intro hen hk hkb
    simp [hact, hen, not_le.mpr hk, not_lt.mpr hkb, debitedSub]
  · intro hen
    simp [hact, hen]
  · intro hen hk
    simp [hact, hen, hk]
  · intro hen hk hbk
    simp [hact, hen, not_le.mpr hk, hbk]

/-- Witness for C5: charging 4 against balance 10 on the concrete Active,
usage-enabled record yields balance 6 and status stays Active. -/
theorem usage_charge_correct_witness :
    charge_usage usageState 0 4 = Except.ok
      { usageState with subs := setKey 0 (debitedSub usageSub 4) usageState.subs } ∧
    debitedSub usageSub 4 =
      { usageSub with prepaid_balance := 6, status := SubscriptionStatus.Active } := by
  have h := (usage_charge_correct usageState 0 usageSub 4 rfl rfl).1 rfl
    (by decide) (by decide)
  exact ⟨h, by decide⟩

/-- C6 (evidence): the claim asks that a successful cancel persist
`status := Cancelled`, but the source's `cancel_subscription` is an
unimplemented stub: on a state holding an Active record under id 0 it
returns `Ok` and persists nothing, so the record's status remains `Active`,
not `Cancelled`.  The contract's own doc comment and TODO marker
("set status Cancelled") state the claimed behaviour as the intent, so the
code is the bug. -/
theorem cancel_unimplemented :
    cancel_subscription cancelState 0 5 = Except.ok cancelState ∧
    get_subscription cancelState 0 = Except.ok cancelSub ∧
    cancelSub.status = SubscriptionStatus.Active ∧
    cancelSub.status ≠ SubscriptionStatus.Cancelled :=
  ⟨rfl, rfl, rfl, by decide⟩

/-- C7: `get_subscription` returns the stored record when the id exists and
fails with `NotFound` when it does not; being a pure read, it has no
persisted effect (it does not produce a state). -/
theorem get_subscription_spec (s : VaultState) (id : Nat) :
    (∀ sub, lookupKey id s.subs = some sub →
      get_subscription s id = Except.ok sub) ∧
    (lookupKey id s.subs = none →
      get_subscription s id = Except.error Error.NotFound) := by
  constructor
  · intro sub h
    unfold get_subscription
    rw [h]
  · intro h
    unfold get_subscription
    rw [h]

/-- Witness for C7: on the concrete one-record store, id 0 is found and id 5
is `NotFound`. -/
theorem get_subscription_spec_witness :
    get_subscription lookupState 0 = Except.ok lookupSub ∧
    get_subscription lookupState 5 = Except.error Error.NotFound :=
  ⟨(get_subscription_spec lookupState 0).1 lookupSub rfl,
   (get_subscription_spec lookupState 5).2 rfl⟩

/-- C8: within the pagination window, a listed id whose record is missing
from the store is silently skipped: the ids of the returned entries are
exactly the window's ids filtered to those whose record is present, so the
query never fails and the result can be shorter than the window. -/
theorem missing_record_skipped (s : VaultState) (subscriber start limit : Nat) :
    (get_subscriptions_by_subscriber s subscriber start limit).map
        SubscriptionEntry.id =
      (((subscriberIds s subscriber).drop
          (min start (subscriberIds s subscriber).length)).take
        ((if limit = 0 then (subscriberIds s subscriber).length
          else min (saturatingAddU32 start limit) (subscriberIds s subscriber).length)
          - min start (subscriberIds s subscriber).length)).filter
        (fun sub_id => (lookupKey sub_id s.subs).isSome) := by
  rw [get_subscriptions_eq, filterMap_entryFor_ids]

/-- C9: a subscriber with no index entry (including one never observed by
the system) gets an empty sequence, not an error, for any `start` and
`limit`. -/
theorem unknown_subscriber_empty (s : VaultState) (subscriber start limit : Nat)
    (h : lookupKey subscriber s.index = none) :
    get_subscriptions_by_subscriber s subscriber start limit = [] := by
  rw [get_subscriptions_eq]
  simp [subscriberIds, h]

/-- Witness for C9: the never-observed subscriber 7 on the empty store gets
`[]` at `start = 3`, `limit = 5`. -/
theorem unknown_subscriber_empty_witness :
    lookupKey 7 emptyState.index = none ∧
    get_subscriptions_by_subscriber emptyState 7 3 5 = [] :=
  ⟨rfl, unknown_subscriber_empty emptyState 7 3 5 rfl⟩

/-- C10: `create_subscription` validates nothing: for every field assignment
— negative or zero `amount`, `interval_seconds = 0`, `subscriber = merchant`
included — whenever the allocator can advance it returns the fresh counter
value as id and stores the record with status `Active` and
`prepaid_balance = 0` (the supplied fields kept verbatim). -/
theorem create_no_validation (s : VaultState) (subscriber merchant : Nat)
    (amount : Int) (interval_seconds : Nat) (usage_enabled : Bool) (now : Nat)
    (h : s.nextId.getD 0 + 1 < U32_MOD) :
    create_subscription s subscriber merchant amount interval_seconds
        usage_enabled now =
      some (s.nextId.getD 0,
        createdState s ⟨subscriber, merchant, amount, interval_seconds,
          usage_enabled, now⟩) ∧
    lookupKey (s.nextId.getD 0)
        (createdState s ⟨subscriber, merchant, amount, interval_seconds,
          usage_enabled, now⟩).subs =
      some { subscriber := subscriber, merchant := merchant, amount := amount,
             interval_seconds := interval_seconds,
             last_payment_timestamp := now,
             status := SubscriptionStatus.Active, prepaid_balance := 0,
             usage_enabled := usage_enabled } := by
  refine ⟨create_subscription_ok s
    ⟨subscriber, merchant, amount, interval_seconds, usage_enabled, now⟩ h, ?_⟩
  unfold createdState
  rw [lookupKey_setKey_self]
  rfl

/-- Witness for C10: on the empty store, a create with `amount = -5`,
`interval_seconds = 0` and `subscriber = merchant = 3` returns id 0 and
stores the Active, zero-balance record. -/
theorem create_no_validation_witness :
    create_subscription emptyState 3 3 (-5) 0 true 100 =
      some (0, createdState emptyState ⟨3, 3, -5, 0, true, 100⟩) ∧
    lookupKey 0 (createdState emptyState ⟨3, 3, -5, 0, true, 100⟩).subs =
      some { subscriber := 3, merchant := 3, amount := -5,
             interval_seconds := 0, last_payment_timestamp := 100,
             status := SubscriptionStatus.Active, prepaid_balance := 0,
             usage_enabled := true } :=
  create_no_validation emptyState 3 3 (-5) 0 true 100 (by decide)
